import Mathlib

/-!
Verification of the bucket trim coordination subsystem
(`src/rgw/rgw_sync_log_trim.cc`): the wire protocol for trim-counter
queries, the bounded bucket-change counter backing the responses, and the
watch/notify subscription state machine of `BucketTrimWatcher`.

Byte streams are modelled as lists of naturals (one per byte); fallible
decoding returns `Except`.  Machine integers are `Nat`/`Int` with explicit
reduction modulo 2^w where the wire format fixes a width.
-/

/-- A byte string (`bufferlist` contents): one natural number per byte. -/
abbrev Bytes := List Nat

/-- Modelled from the spec: decode failures of the wire protocol.  The
encoding macros (`ENCODE_START`/`DECODE_START` of `include/encoding.h`) are
not part of the provided sources; the spec distinguishes
`ProtocolVersionError` (encoded compat tag exceeds what this build
understands) from `MalformedMessageError` (truncated or corrupt bytes). -/
inductive DecodeError where
  | MalformedMessageError
  | ProtocolVersionError
  deriving DecidableEq, Repr

/-- Little-endian encoding of one byte. -/
def encU8 (n : Nat) : Bytes := [n % 256]

/-- Little-endian encoding of a `uint16_t`. -/
def encU16 (n : Nat) : Bytes := [n % 256, n / 256 % 256]

/-- Little-endian encoding of a `__u32`. -/
def encU32 (n : Nat) : Bytes :=
  [n % 256, n / 256 % 256, n / 65536 % 256, n / 16777216 % 256]

/-- Two's-complement little-endian encoding of a 32-bit `int`. -/
def encI32 (i : Int) : Bytes := encU32 (i % 4294967296).toNat

/-- Read one byte; fails on an exhausted buffer (`MalformedMessageError`). -/
def readU8 : Bytes → Except DecodeError (Nat × Bytes)
  | [] => .error .MalformedMessageError
  | b :: rest => .ok (b, rest)

/-- Read a little-endian `uint16_t`. -/
def readU16 : Bytes → Except DecodeError (Nat × Bytes)
  | b0 :: b1 :: rest => .ok (b0 + 256 * b1, rest)
  | _ => .error .MalformedMessageError

/-- Read a little-endian `__u32`. -/
def readU32 : Bytes → Except DecodeError (Nat × Bytes)
  | b0 :: b1 :: b2 :: b3 :: rest =>
      .ok (b0 + 256 * b1 + 65536 * b2 + 16777216 * b3, rest)
  | _ => .error .MalformedMessageError

/-- Read a two's-complement 32-bit `int`. -/
def readI32 (bs : Bytes) : Except DecodeError (Int × Bytes) :=
  match readU32 bs with
  | .error e => .error e
  | .ok (n, rest) =>
      .ok ((if n < 2147483648 then (n : Int) else (n : Int) - 4294967296), rest)

/-- Read exactly `k` raw bytes; fails without reading past the buffer. -/
def readChunk (k : Nat) (bs : Bytes) : Except DecodeError (Bytes × Bytes) :=
  if bs.length < k then .error .MalformedMessageError
  else .ok (bs.take k, bs.drop k)

/-- Encoding of a `std::string`: 32-bit length followed by the raw bytes. -/
def encStr (s : Bytes) : Bytes := encU32 s.length ++ s

/-- Decoding of a `std::string`. -/
def readStr (bs : Bytes) : Except DecodeError (Bytes × Bytes) :=
  match readU32 bs with
  | .error e => .error e
  | .ok (len, rest) => readChunk len rest

/-- Modelled from the spec: the `ENCODE_START(v, compat, bl)` /
`ENCODE_FINISH(bl)` frame — a version byte, a compat byte, and the 32-bit
payload length, followed by the payload. -/
def encFramed (v compat : Nat) (payload : Bytes) : Bytes :=
  encU8 v ++ encU8 compat ++ encU32 payload.length ++ payload

/-- Modelled from the spec: the `DECODE_START(maxv, p)` / `DECODE_FINISH(p)`
frame reader.  Fails with `ProtocolVersionError` when the encoded compat tag
exceeds `maxv`; fails with `MalformedMessageError` when the buffer is shorter
than the declared payload length; skips any trailing payload bytes the body
did not consume. -/
def decodeFramed {α : Type} (maxv : Nat)
    (body : Bytes → Except DecodeError (α × Bytes)) (bs : Bytes) :
    Except DecodeError (α × Bytes) :=
  match readU8 bs with
  | .error e => .error e
  | .ok (_, r1) =>
    match readU8 r1 with
    | .error e => .error e
    | .ok (compat, r2) =>
      if maxv < compat then .error .ProtocolVersionError
      else
        match readU32 r2 with
        | .error e => .error e
        | .ok (len, r3) =>
          if r3.length < len then .error .MalformedMessageError
          else
            match body (r3.take len) with
            | .error e => .error e
            | .ok (a, _) => .ok (a, r3.drop len)

namespace TrimCounters

/-- `TrimCounters::BucketCounter`: counter for a single bucket. -/
structure BucketCounter where
  bucket : Bytes
  count : Int
  deriving DecidableEq, Repr

/-- `TrimCounters::BucketCounter::encode`: no versioning to save space —
the bucket string followed by the count, nothing else. -/
def BucketCounter.encode (b : BucketCounter) : Bytes :=
  encStr b.bucket ++ encI32 b.count

/-- `TrimCounters::BucketCounter::decode`. -/
def BucketCounter.decode (bs : Bytes) :
    Except DecodeError (BucketCounter × Bytes) :=
  match readStr bs with
  | .error e => .error e
  | .ok (s, r1) =>
    match readI32 r1 with
    | .error e => .error e
    | .ok (c, r2) => .ok (⟨s, c⟩, r2)

/-- `TrimCounters::Request`: request bucket trim counters from peers.
`max_buckets` is a `uint16_t`. -/
structure Request where
  max_buckets : Nat
  deriving DecidableEq, Repr

/-- `TrimCounters::Request::encode`: `ENCODE_START(1, 1, bl)`, the
`uint16_t max_buckets`, `ENCODE_FINISH(bl)`. -/
def Request.encode (r : Request) : Bytes :=
  encFramed 1 1 (encU16 r.max_buckets)

/-- `TrimCounters::Request::decode`: `DECODE_START(1, p)` then
`max_buckets`. -/
def Request.decode (bs : Bytes) : Except DecodeError (Request × Bytes) :=
  match decodeFramed 1 readU16 bs with
  | .error e => .error e
  | .ok (n, rest) => .ok (⟨n⟩, rest)

/-- `TrimCounters::Response`: the current bucket trim counters. -/
structure Response where
  bucket_counters : List BucketCounter
  deriving DecidableEq, Repr

/-- Encoding of `std::vector<BucketCounter>`: 32-bit element count followed
by the concatenated element encodings. -/
def encCounterVec (l : List BucketCounter) : Bytes :=
  encU32 l.length ++ (l.map BucketCounter.encode).flatten

/-- Decode `n` consecutive `BucketCounter` records. -/
def readCounterList : Nat → Bytes → Except DecodeError (List BucketCounter × Bytes)
  | 0, bs => .ok ([], bs)
  | n + 1, bs =>
    match BucketCounter.decode bs with
    | .error e => .error e
    | .ok (b, r1) =>
      match readCounterList n r1 with
      | .error e => .error e
      | .ok (l, r2) => .ok (b :: l, r2)

/-- Decoding of `std::vector<BucketCounter>`. -/
def readCounterVec (bs : Bytes) :
    Except DecodeError (List BucketCounter × Bytes) :=
  match readU32 bs with
  | .error e => .error e
  | .ok (n, rest) => readCounterList n rest

/-- `TrimCounters::Response::encode`: `ENCODE_START(1, 1, bl)`, the counter
vector, `ENCODE_FINISH(bl)`. -/
def Response.encode (r : Response) : Bytes :=
  encFramed 1 1 (encCounterVec r.bucket_counters)

/-- `TrimCounters::Response::decode`. -/
def Response.decode (bs : Bytes) : Except DecodeError (Response × Bytes) :=
  match decodeFramed 1 readCounterVec bs with
  | .error e => .error e
  | .ok (l, rest) => .ok (⟨l⟩, rest)

/-- Well-formedness of a `BucketCounter` as a C++ value: the string length
fits a `__u32` and the count fits a 32-bit `int`. -/
def BucketCounter.wf (b : BucketCounter) : Prop :=
  b.bucket.length < 4294967296 ∧
  -2147483648 ≤ b.count ∧ b.count < 2147483648

/-- Well-formedness of a `Response` as a C++ value: entry count and encoded
payload length fit a `__u32`, and each entry is well formed. -/
def Response.wf (r : Response) : Prop :=
  r.bucket_counters.length < 4294967296 ∧
  (∀ b ∈ r.bucket_counters, b.wf) ∧
  (encCounterVec r.bucket_counters).length < 4294967296

instance (b : BucketCounter) : Decidable b.wf := by
  unfold BucketCounter.wf; infer_instance

instance (r : Response) : Decidable r.wf := by
  unfold Response.wf; exact instDecidableAnd

end TrimCounters

/-! ### The bounded bucket-change counter

`BucketChangeCounter = BoundedKeyCounter<std::string, int>` lives in
`common/bounded_key_counter.h`, which is not among the provided sources;
it is modelled here from the spec's contract (§3): `insert(key)` increments
the key's count by 1 (creating it at count 1, possibly evicting another
entry first when the configured capacity is full); `get_highest(n)` returns
the `n` entries with the largest counts in descending order, ties broken by
a consistent deterministic rule (here: insertion order). -/

/-- Does the association list hold an entry for key `k`? -/
def hasKey (k : Bytes) : List (Bytes × Int) → Bool
  | [] => false
  | e :: es => e.1 == k || hasKey k es

/-- Increment the count of the (unique) entry for key `k`. -/
def bumpKey (k : Bytes) : List (Bytes × Int) → List (Bytes × Int)
  | [] => []
  | e :: es => if e.1 = k then (e.1, e.2 + 1) :: es else e :: bumpKey k es

/-- Remove the first entry whose count is minimal (the eviction victim). -/
def evictMin : List (Bytes × Int) → List (Bytes × Int)
  | [] => []
  | e :: es => if es.all (fun x => e.2 ≤ x.2) then es else e :: evictMin es

/-- Count lookup: the stored count for key `k`, or 0 when absent. -/
def countValue (k : Bytes) : List (Bytes × Int) → Int
  | [] => 0
  | e :: es => if e.1 = k then e.2 else countValue k es

/-- Stable descending insertion by count (earlier entries win ties). -/
def insertByCount (e : Bytes × Int) : List (Bytes × Int) → List (Bytes × Int)
  | [] => [e]
  | x :: xs => if x.2 ≤ e.2 then e :: x :: xs else x :: insertByCount e xs

/-- Stable sort by count, descending. -/
def sortByCountDesc : List (Bytes × Int) → List (Bytes × Int)
  | [] => []
  | e :: es => insertByCount e (sortByCountDesc es)

/-- Modelled from the spec: the bounded key counter — a capacity-bounded
mapping from bucket key to hit count, kept as an insertion-ordered
association list with pairwise-distinct keys. -/
structure BoundedKeyCounter where
  capacity : Nat
  entries : List (Bytes × Int)
  deriving DecidableEq, Repr

/-- The empty counter of a given capacity (`counter(config.counter_size)`). -/
def BoundedKeyCounter.empty (cap : Nat) : BoundedKeyCounter := ⟨cap, []⟩

/-- Modelled from the spec: `insert(key)` increments the key's count by 1,
creating it at count 1 when absent, evicting a minimal entry first when the
counter is at capacity. -/
def BoundedKeyCounter.insert (c : BoundedKeyCounter) (k : Bytes) :
    BoundedKeyCounter :=
  if hasKey k c.entries then ⟨c.capacity, bumpKey k c.entries⟩
  else if c.entries.length < c.capacity then
    ⟨c.capacity, c.entries ++ [(k, 1)]⟩
  else if c.capacity = 0 then c
  else ⟨c.capacity, evictMin c.entries ++ [(k, 1)]⟩

/-- Modelled from the spec: `get_highest(n)` — the `n` entries with the
largest counts, descending, ties in insertion order. -/
def BoundedKeyCounter.get_highest (c : BoundedKeyCounter) (n : Nat) :
    List (Bytes × Int) :=
  (sortByCountDesc c.entries).take n

/-- The stored count for a key (0 when absent). -/
def BoundedKeyCounter.valueOf (c : BoundedKeyCounter) (k : Bytes) : Int :=
  countValue k c.entries

/-- `BucketTrimManager::Impl::get_bucket_counters`: take the `count` highest
entries of the change counter and emplace them as `BucketCounter` records
(performed under `mutex` in the source; the lock serializes `record` and
`query`, so the sequential model below is the per-interleaving view). -/
def get_bucket_counters (c : BoundedKeyCounter) (count : Nat) :
    List TrimCounters.BucketCounter :=
  (c.get_highest count).map (fun e => ⟨e.1, e.2⟩)

/-- `BucketTrimManager::on_bucket_changed`: record one observed change for
`bucket` in the counter (under `mutex` in the source). -/
def on_bucket_changed (c : BoundedKeyCounter) (bucket : Bytes) :
    BoundedKeyCounter :=
  c.insert bucket

/-- Replay a whole sequence of `on_bucket_changed` calls. -/
def recordAll (c : BoundedKeyCounter) (seq : List Bytes) : BoundedKeyCounter :=
  seq.foldl on_bucket_changed c

/-- Does replaying `seq` from `c` never trigger an eviction?  (Each insert
finds its key already present or finds room below capacity.) -/
def noEviction : BoundedKeyCounter → List Bytes → Bool
  | _, [] => true
  | c, k :: ks =>
    (hasKey k c.entries || decide (c.entries.length < c.capacity)) &&
      noEviction (c.insert k) ks

/-- The bytes of a bucket key string such as `"bucket1:inst1"`. -/
def strBytes (s : String) : Bytes := s.data.map Char.toNat

/-! ### The trim-counters notify handler and the watcher

`TrimCounters::Handler::handle` decodes a `Request`, clamps
`max_buckets` to the fixed ceiling 128, queries the server
(`get_bucket_counters`) and encodes the `Response` into the output buffer.
`BucketTrimWatcher` owns the subscription handle and the handler table
(`{NotifyTrimCounters → TrimCounters::Handler}`, registered in the
constructor); its interaction with librados (`watch2`, `unwatch2`,
`create`, `close`, `notify_ack`) is modelled by passing the return codes
the calls would produce and recording the calls made. -/

/-- The `Response` that `TrimCounters::Handler::handle` builds for a given
input buffer: decode the request, clamp to `min(max_buckets, 128)`, query
the counter. -/
def handlerResponse (c : BoundedKeyCounter) (input : Bytes) :
    Except DecodeError TrimCounters.Response :=
  match TrimCounters.Request.decode input with
  | .error e => .error e
  | .ok (req, _) =>
      .ok ⟨get_bucket_counters c (Nat.min req.max_buckets 128)⟩

/-- `TrimCounters::Handler::handle`: the bytes written to the output
buffer (the encoded response), or the decode error thrown. -/
def handlerHandle (c : BoundedKeyCounter) (input : Bytes) :
    Except DecodeError Bytes :=
  match handlerResponse c input with
  | .error e => .error e
  | .ok resp => .ok resp.encode

/-- The librados calls a watcher operation can make, in order. -/
inductive RadosCall where
  | getRef | watch | create | unwatch | close
  deriving DecidableEq, Repr

/-- errno `ENOENT` (no such object). -/
def ENOENT : Int := 2
/-- errno `EEXIST` (object already exists). -/
def EEXIST : Int := 17
/-- errno `ENOTCONN` (watch disconnected). -/
def ENOTCONN : Int := 107

/-- The watcher state the claims touch: the current subscription handle and
the counter backing the registered `TrimCounters::Handler`. -/
structure BucketTrimWatcher where
  handle : Nat
  counter : BoundedKeyCounter
  deriving DecidableEq, Repr

/-- Outcomes the environment (librados) supplies to one `start()` call:
the return codes of `get_raw_obj_ref`, the first `watch2` (with the handle
it would store on success), `create`, and the retried `watch2`. -/
structure StartEnv where
  refR : Int
  w1 : Int
  h1 : Nat
  cr : Int
  w2 : Int
  h2 : Nat
  deriving DecidableEq, Repr

/-- `BucketTrimWatcher::start`: obtain the object ref; `watch2`; on
`-ENOENT` create the object exclusively (treating `-EEXIST` from a
concurrent creator as success) and retry `watch2` once; on any remaining
failure close the ioctx and return the error; otherwise return 0.  Returns
the result code, the new state, and the librados calls made. -/
def BucketTrimWatcher.start (w : BucketTrimWatcher) (env : StartEnv) :
    Int × BucketTrimWatcher × List RadosCall :=
  if env.refR < 0 then (env.refR, w, [.getRef])
  else
    let step :=
      if env.w1 = -ENOENT then
        if env.cr = -EEXIST ∨ env.cr = 0 then
          (env.w2, (if 0 ≤ env.w2 then { w with handle := env.h2 } else w),
            [RadosCall.getRef, .watch, .create, .watch])
        else (env.cr, w, [RadosCall.getRef, .watch, .create])
      else
        (env.w1, (if 0 ≤ env.w1 then { w with handle := env.h1 } else w),
          [RadosCall.getRef, .watch])
    if step.1 < 0 then (step.1, step.2.1, step.2.2 ++ [RadosCall.close])
    else (0, step.2.1, step.2.2)

/-- Outcomes the environment supplies to one `restart()` call: the return
codes of `unwatch2` and `watch2` (with the fresh handle on success). -/
structure RestartEnv where
  ur : Int
  wr : Int
  hnew : Nat
  deriving DecidableEq, Repr

/-- `BucketTrimWatcher::restart`: `unwatch2` (failure only logged), then
`watch2`; on failure close the ioctx.  Returns the result code, the new
state, and the calls made. -/
def BucketTrimWatcher.restart (w : BucketTrimWatcher) (env : RestartEnv) :
    Int × BucketTrimWatcher × List RadosCall :=
  let w1 := if 0 ≤ env.wr then { w with handle := env.hnew } else w
  if env.wr < 0 then (env.wr, w1, [RadosCall.unwatch, .watch, .close])
  else (env.wr, w1, [RadosCall.unwatch, .watch])

/-- `BucketTrimWatcher::handle_notify`: drop the message silently when the
cookie differs from the current handle; otherwise decode the notify type
(4-byte raw encoding of `TrimNotifyType`), dispatch to the registered
handler (`NotifyTrimCounters = 0`), and always `notify_ack` with whatever
the handler wrote — empty on unknown type or on any caught decode error.
Returns the (unchanged) state and `some reply` when an ack is sent,
`none` when the message is dropped. -/
def BucketTrimWatcher.handle_notify (w : BucketTrimWatcher)
    (notify_id cookie notifier_id : Nat) (bl : Bytes) :
    BucketTrimWatcher × Option Bytes :=
  if cookie ≠ w.handle then (w, none)
  else
    let reply : Bytes :=
      match readU32 bl with
      | .error _ => []
      | .ok (ty, p) =>
        if ty = 0 then
          match handlerHandle w.counter p with
          | .ok out => out
          | .error _ => []
        else []
    (w, some reply)

/-- `BucketTrimWatcher::handle_error`: ignore events whose cookie does not
match the current handle; on `-ENOTCONN` run exactly one `restart`; any
other error code is ignored.  Returns the new state and the calls made. -/
def BucketTrimWatcher.handle_error (w : BucketTrimWatcher)
    (env : RestartEnv) (cookie : Nat) (err : Int) :
    BucketTrimWatcher × List RadosCall :=
  if cookie ≠ w.handle then (w, [])
  else if err = -ENOTCONN then
    let r := w.restart env
    (r.2.1, r.2.2)
  else (w, [])

/-! ### Round-trip lemmas for the wire primitives -/

theorem readU8_enc (n : Nat) (h : n < 256) (r : Bytes) :
    readU8 (encU8 n ++ r) = .ok (n, r) := by
  simp [readU8, encU8, Nat.mod_eq_of_lt h]

theorem readU16_enc (n : Nat) (h : n < 65536) (r : Bytes) :
    readU16 (encU16 n ++ r) = .ok (n, r) := by
  simp only [encU16, List.cons_append, List.nil_append, readU16,
    Except.ok.injEq, Prod.mk.injEq]
  exact ⟨by omega, trivial⟩

theorem readU32_enc (n : Nat) (h : n < 4294967296) (r : Bytes) :
    readU32 (encU32 n ++ r) = .ok (n, r) := by
  simp only [encU32, List.cons_append, List.nil_append, readU32,
    Except.ok.injEq, Prod.mk.injEq]
  exact ⟨by omega, trivial⟩

theorem readI32_enc (i : Int) (h1 : -2147483648 ≤ i) (h2 : i < 2147483648)
    (r : Bytes) : readI32 (encI32 i ++ r) = .ok (i, r) := by
  unfold encI32 readI32
  rw [readU32_enc _ (by omega) r]
  simp only [Except.ok.injEq, Prod.mk.injEq]
  exact ⟨by split <;> omega, trivial⟩

theorem readStr_enc (s : Bytes) (h : s.length < 4294967296) (r : Bytes) :
    readStr (encStr s ++ r) = .ok (s, r) := by
  unfold encStr readStr
  rw [List.append_assoc, readU32_enc _ h]
  have hlen : ¬ (s ++ r).length < s.length := by
    simp [List.length_append]
  simp [readChunk, hlen, List.take_left, List.drop_left]

theorem bcDecode_enc (b : TrimCounters.BucketCounter) (h : b.wf) (r : Bytes) :
    TrimCounters.BucketCounter.decode (b.encode ++ r) = .ok (b, r) := by
  obtain ⟨h1, h2, h3⟩ := h
  simp [TrimCounters.BucketCounter.encode, TrimCounters.BucketCounter.decode,
    List.append_assoc, readStr_enc _ h1, readI32_enc _ h2 h3]

theorem counterList_enc (l : List TrimCounters.BucketCounter)
    (h : ∀ b ∈ l, b.wf) (r : Bytes) :
    TrimCounters.readCounterList l.length
      ((l.map TrimCounters.BucketCounter.encode).flatten ++ r) = .ok (l, r) := by
  induction l generalizing r with
  | nil => simp [TrimCounters.readCounterList]
  | cons b bs ih =>
    simp [List.append_assoc, TrimCounters.readCounterList,
      bcDecode_enc b (h b (by simp)), ih (fun x hx => h x (by simp [hx]))]

theorem counterVec_enc (l : List TrimCounters.BucketCounter)
    (hn : l.length < 4294967296) (h : ∀ b ∈ l, b.wf) (r : Bytes) :
    TrimCounters.readCounterVec (TrimCounters.encCounterVec l ++ r) = .ok (l, r) := by
  simp only [TrimCounters.encCounterVec, TrimCounters.readCounterVec,
    List.append_assoc]
  rw [readU32_enc _ hn]
  exact counterList_enc l h r

theorem framed_enc {α : Type} (body : Bytes → Except DecodeError (α × Bytes))
    (payload : Bytes) (a : α) (x : Bytes)
    (hlen : payload.length < 4294967296)
    (hbody : body payload = .ok (a, x)) (r : Bytes) :
    decodeFramed 1 body (encFramed 1 1 payload ++ r) = .ok (a, r) := by
  have h1 : ¬ (payload ++ r).length < payload.length := by
    simp [List.length_append]
  simp only [encFramed, encU8, List.cons_append, List.nil_append,
    List.append_assoc, decodeFramed, readU8, Nat.reduceMod]
  rw [readU32_enc _ hlen]
  simp only [Nat.lt_irrefl, if_false, h1, List.take_left, List.drop_left, hbody]

theorem requestDecode_enc (req : TrimCounters.Request)
    (h : req.max_buckets < 65536) (r : Bytes) :
    TrimCounters.Request.decode (req.encode ++ r) = .ok (req, r) := by
  have hbody : readU16 (encU16 req.max_buckets) = .ok (req.max_buckets, []) := by
    have := readU16_enc req.max_buckets h []
    simpa using this
  simp [TrimCounters.Request.decode, TrimCounters.Request.encode,
    framed_enc readU16 (encU16 req.max_buckets) req.max_buckets [] (by simp [encU16]) hbody]

theorem responseDecode_enc (resp : TrimCounters.Response)
    (h : resp.wf) (r : Bytes) :
    TrimCounters.Response.decode (resp.encode ++ r) = .ok (resp, r) := by
  obtain ⟨h1, h2, h3⟩ := h
  have hbody : TrimCounters.readCounterVec
      (TrimCounters.encCounterVec resp.bucket_counters) = .ok (resp.bucket_counters, []) := by
    have := counterVec_enc resp.bucket_counters h1 h2 []
    simpa using this
  simp [TrimCounters.Response.decode, TrimCounters.Response.encode,
    framed_enc TrimCounters.readCounterVec _ resp.bucket_counters [] h3 hbody]

/-! ### Version rejection and truncation -/

theorem encFramed_length (v c : Nat) (p : Bytes) :
    (encFramed v c p).length = 6 + p.length := by
  simp [encFramed, encU8, encU32]
  omega

theorem framed_compat {α : Type} (body : Bytes → Except DecodeError (α × Bytes))
    (v compat : Nat) (payload : Bytes) (h1 : 1 < compat) (h2 : compat < 256) :
    decodeFramed 1 body (encFramed v compat payload) = .error .ProtocolVersionError := by
  simp [encFramed, encU8, decodeFramed, readU8, Nat.mod_eq_of_lt h2, h1]

theorem framed_trunc {α : Type} (body : Bytes → Except DecodeError (α × Bytes))
    (payload : Bytes) (hlen : payload.length < 4294967296)
    (k : Nat) (hk : k < (encFramed 1 1 payload).length) :
    decodeFramed 1 body ((encFramed 1 1 payload).take k) =
      .error .MalformedMessageError := by
  rw [encFramed_length] at hk
  rcases Nat.lt_or_ge k 6 with h6 | h6
  · interval_cases k <;>
      simp [encFramed, encU8, encU32, decodeFramed, readU8, readU16, readU32,
        List.take_succ_cons]
  · obtain ⟨j, rfl⟩ : ∃ j, k = 6 + j := ⟨k - 6, by omega⟩
    have hj : j < payload.length := by omega
    have hD : payload.length % 256 + 256 * (payload.length / 256 % 256) +
        65536 * (payload.length / 65536 % 256) +
        16777216 * (payload.length / 16777216 % 256) = payload.length := by
      omega
    have hlt : (payload.take j).length < payload.length := by
      simp [List.length_take]
      omega
    have h6j : 6 + j = j + 1 + 1 + 1 + 1 + 1 + 1 := by omega
    simp only [encFramed, encU8, encU32, List.cons_append, List.nil_append, h6j,
      List.take_succ_cons, decodeFramed, readU8, readU32, Nat.reduceMod]
    rw [hD]
    simp [hlt]
    intro h'
    exact absurd h' (by omega)

/-! ### A successful decode consumes only a prefix of the buffer -/

theorem readU8_suffix {bs : Bytes} {a : Nat} {rest : Bytes}
    (h : readU8 bs = .ok (a, rest)) : rest <:+ bs := by
  cases bs with
  | nil => simp [readU8] at h
  | cons b t =>
    simp only [readU8, Except.ok.injEq, Prod.mk.injEq] at h
    obtain ⟨-, rfl⟩ := h
    exact List.suffix_cons b t

theorem readU32_suffix {bs : Bytes} {a : Nat} {rest : Bytes}
    (h : readU32 bs = .ok (a, rest)) : rest <:+ bs := by
  match bs with
  | b0 :: b1 :: b2 :: b3 :: t =>
    simp only [readU32, Except.ok.injEq, Prod.mk.injEq] at h
    obtain ⟨-, rfl⟩ := h
    exact ⟨[b0, b1, b2, b3], rfl⟩
  | [] => simp [readU32] at h
  | [b0] => simp [readU32] at h
  | [b0, b1] => simp [readU32] at h
  | [b0, b1, b2] => simp [readU32] at h

theorem decodeFramed_suffix {α : Type} {maxv : Nat}
    {body : Bytes → Except DecodeError (α × Bytes)} {bs : Bytes}
    {a : α} {rest : Bytes}
    (h : decodeFramed maxv body bs = .ok (a, rest)) : rest <:+ bs := by
  unfold decodeFramed at h
  cases h1 : readU8 bs with
  | error e => rw [h1] at h; simp at h
  | ok p1 =>
    obtain ⟨v, r1⟩ := p1
    rw [h1] at h
    simp only [] at h
    cases h2 : readU8 r1 with
    | error e => rw [h2] at h; simp at h
    | ok p2 =>
      obtain ⟨compat, r2⟩ := p2
      rw [h2] at h
      simp only [] at h
      by_cases hc : maxv < compat
      · rw [if_pos hc] at h; simp at h
      · rw [if_neg hc] at h
        cases h3 : readU32 r2 with
        | error e => rw [h3] at h; simp at h
        | ok p3 =>
          obtain ⟨len, r3⟩ := p3
          rw [h3] at h
          simp only [] at h
          by_cases hl : r3.length < len
          · rw [if_pos hl] at h; simp at h
          · rw [if_neg hl] at h
            cases h4 : body (r3.take len) with
            | error e => rw [h4] at h; simp at h
            | ok p4 =>
              obtain ⟨a2, x⟩ := p4
              rw [h4] at h
              simp only [Except.ok.injEq, Prod.mk.injEq] at h
              obtain ⟨-, rfl⟩ := h
              exact (List.drop_suffix len r3).trans
                ((readU32_suffix h3).trans
                  ((readU8_suffix h2).trans (readU8_suffix h1)))

theorem requestDecode_suffix {bs : Bytes} {r : TrimCounters.Request}
    {rest : Bytes} (h : TrimCounters.Request.decode bs = .ok (r, rest)) :
    rest <:+ bs := by
  unfold TrimCounters.Request.decode at h
  cases hd : decodeFramed 1 readU16 bs with
  | error e => rw [hd] at h; simp at h
  | ok p =>
    obtain ⟨n, r2⟩ := p
    rw [hd] at h
    simp only [Except.ok.injEq, Prod.mk.injEq] at h
    obtain ⟨-, rfl⟩ := h
    exact decodeFramed_suffix hd

theorem responseDecode_suffix {bs : Bytes} {r : TrimCounters.Response}
    {rest : Bytes} (h : TrimCounters.Response.decode bs = .ok (r, rest)) :
    rest <:+ bs := by
  unfold TrimCounters.Response.decode at h
  cases hd : decodeFramed 1 TrimCounters.readCounterVec bs with
  | error e => rw [hd] at h; simp at h
  | ok p =>
    obtain ⟨l, r2⟩ := p
    rw [hd] at h
    simp only [Except.ok.injEq, Prod.mk.injEq] at h
    obtain ⟨-, rfl⟩ := h
    exact decodeFramed_suffix hd

/-! ### Counter lemmas -/

theorem insertByCount_length (e : Bytes × Int) (l : List (Bytes × Int)) :
    (insertByCount e l).length = l.length + 1 := by
  induction l with
  | nil => simp [insertByCount]
  | cons x xs ih =>
    unfold insertByCount
    split
    · simp
    · simp [ih]

theorem sortByCountDesc_length (l : List (Bytes × Int)) :
    (sortByCountDesc l).length = l.length := by
  induction l with
  | nil => simp [sortByCountDesc]
  | cons e es ih => simp [sortByCountDesc, insertByCount_length, ih]

theorem get_bucket_counters_length (c : BoundedKeyCounter) (n : Nat) :
    (get_bucket_counters c n).length = Nat.min n c.entries.length := by
  simp [get_bucket_counters, BoundedKeyCounter.get_highest, List.length_take,
    sortByCountDesc_length]

theorem countValue_bump (b k : Bytes) (l : List (Bytes × Int))
    (hk : hasKey k l = true) :
    countValue b (bumpKey k l) = countValue b l + (if b = k then 1 else 0) := by
  induction l with
  | nil => simp [hasKey] at hk
  | cons e es ih =>
    simp only [hasKey, Bool.or_eq_true, beq_iff_eq] at hk
    by_cases he : e.1 = k
    · by_cases hb : b = k
      · simp [bumpKey, countValue, he, hb]
      · have hkb : ¬ k = b := fun hh => hb hh.symm
        simp [bumpKey, countValue, he, hb, hkb]
    · have hk' : hasKey k es = true := by
        rcases hk with h' | h'
        · exact absurd h' he
        · exact h'
      by_cases hb : e.1 = b
      · have hbk : ¬ b = k := fun hh => he (hb.trans hh)
        simp [bumpKey, countValue, he, hb, hbk]
      · simp [bumpKey, countValue, he, hb, ih hk']

theorem countValue_append_new (b k : Bytes) (l : List (Bytes × Int))
    (hk : hasKey k l = false) :
    countValue b (l ++ [(k, 1)]) =
      countValue b l + (if b = k then 1 else 0) := by
  induction l with
  | nil =>
    simp only [List.nil_append, countValue]
    by_cases hb : b = k
    · simp [hb, countValue]
    · have : ¬ k = b := fun hh => hb hh.symm
      simp [this, hb, countValue]
  | cons e es ih =>
    simp only [hasKey, Bool.or_eq_false_iff, beq_eq_false_iff_ne, ne_eq] at hk
    obtain ⟨hek, hkes⟩ := hk
    by_cases hb : e.1 = b
    · have : ¬ b = k := fun hh => hek (hb.trans hh)
      simp [countValue, hb, this]
    · simp [countValue, hb, ih hkes]

theorem noEviction_counts (seq : List Bytes) (c : BoundedKeyCounter)
    (b : Bytes) (h : noEviction c seq = true) :
    (recordAll c seq).valueOf b = c.valueOf b + (seq.count b : Int) := by
  induction seq generalizing c with
  | nil => simp [recordAll, List.count_nil]
  | cons k ks ih =>
    simp only [noEviction, Bool.and_eq_true, Bool.or_eq_true] at h
    obtain ⟨hstep, hrest⟩ := h
    have step : (c.insert k).valueOf b =
        c.valueOf b + (if b = k then 1 else 0) := by
      by_cases hk : hasKey k c.entries = true
      · simp [BoundedKeyCounter.insert, hk, BoundedKeyCounter.valueOf,
          countValue_bump b k _ hk]
      · have hroom : c.entries.length < c.capacity := by
          rcases hstep with h' | h'
          · exact absurd h' hk
          · exact of_decide_eq_true h'
        have hkf : hasKey k c.entries = false := by
          simpa using hk
        simp [BoundedKeyCounter.insert, hkf, hroom, BoundedKeyCounter.valueOf,
          countValue_append_new b k _ hkf]
    have hrec : recordAll c (k :: ks) = recordAll (c.insert k) ks := by
      simp [recordAll, on_bucket_changed]
    rw [hrec, ih _ hrest, step]
    have hcount : ((k :: ks).count b : Int) =
        (ks.count b : Int) + (if b = k then 1 else 0) := by
      by_cases hb : b = k
      · subst hb
        simp [List.count_cons]
      · have : ¬ k = b := fun hh => hb hh.symm
        simp [List.count_cons, this, hb]
    rw [hcount]
    ring

/-! ### Claim theorems -/

/-- C1: for every decoded `TrimRequest`, the query-serving path
(`TrimCounters::Handler::handle` via `get_bucket_counters`) produces a
response with at most `min(max_buckets, 128)` counter entries — the clamp
to the fixed ceiling 128 is applied regardless of the peer-supplied
value — and never more entries than there are distinct keys recorded in
the counter. -/
theorem claim_C1_response_clamp (c : BoundedKeyCounter) (input : Bytes)
    (req : TrimCounters.Request) (rest : Bytes)
    (h : TrimCounters.Request.decode input = .ok (req, rest)) :
    ∃ resp, handlerResponse c input = .ok resp ∧
      resp.bucket_counters.length ≤ Nat.min req.max_buckets 128 ∧
      resp.bucket_counters.length ≤ c.entries.length := by
  refine ⟨⟨get_bucket_counters c (Nat.min req.max_buckets 128)⟩, ?_, ?_, ?_⟩
  · simp [handlerResponse, h]
  · rw [get_bucket_counters_length]
    exact Nat.min_le_left _ _
  · rw [get_bucket_counters_length]
    exact Nat.min_le_right _ _

/-- C1 witness: a concrete request asking for 300 entries against a counter
holding two keys. -/
theorem claim_C1_response_clamp_witness :
    TrimCounters.Request.decode
      (TrimCounters.Request.encode ⟨300⟩) = .ok (⟨300⟩, []) ∧
    ∃ resp, handlerResponse ⟨4, [([1], 5), ([2], 3)]⟩
        (TrimCounters.Request.encode ⟨300⟩) = .ok resp ∧
      resp.bucket_counters.length ≤ Nat.min (300 : Nat) 128 ∧
      resp.bucket_counters.length ≤
        (⟨4, [([1], 5), ([2], 3)]⟩ : BoundedKeyCounter).entries.length :=
  ⟨by rfl,
   claim_C1_response_clamp ⟨4, [([1], 5), ([2], 3)]⟩
     (TrimCounters.Request.encode ⟨300⟩) ⟨300⟩ [] (by rfl)⟩

/-- C2: decoding the bytes produced by encoding yields the original value,
for every representable `TrimRequest` (`max_buckets` a `uint16_t`), every
well-formed `TrimResponse`, and every representable `BucketCounterEntry`
(string length a `__u32`, count a 32-bit `int`). -/
theorem claim_C2_roundtrip (req : TrimCounters.Request)
    (resp : TrimCounters.Response) (b : TrimCounters.BucketCounter)
    (hreq : req.max_buckets < 65536) (hresp : resp.wf) (hb : b.wf) :
    TrimCounters.Request.decode req.encode = .ok (req, []) ∧
    TrimCounters.Response.decode resp.encode = .ok (resp, []) ∧
    TrimCounters.BucketCounter.decode b.encode = .ok (b, []) := by
  refine ⟨?_, ?_, ?_⟩
  · have := requestDecode_enc req hreq []
    simpa using this
  · have := responseDecode_enc resp hresp []
    simpa using this
  · have := bcDecode_enc b hb []
    simpa using this

set_option maxRecDepth 100000 in
/-- C2 witness: the round-trips at a maximal request, a response whose
entry list sits at the 128-entry ceiling, an empty-entry-list response,
and an entry with empty bucket string and the maximum int32 count. -/
theorem claim_C2_roundtrip_witness :
    ((⟨65535⟩ : TrimCounters.Request).max_buckets < 65536 ∧
     (⟨List.replicate 128 ⟨[98], 1⟩⟩ : TrimCounters.Response).wf ∧
     (⟨[], 2147483647⟩ : TrimCounters.BucketCounter).wf ∧
     (⟨[]⟩ : TrimCounters.Response).wf) ∧
    (TrimCounters.Request.decode
        (TrimCounters.Request.encode ⟨65535⟩) = .ok (⟨65535⟩, []) ∧
     TrimCounters.Response.decode
        (TrimCounters.Response.encode ⟨List.replicate 128 ⟨[98], 1⟩⟩) =
          .ok (⟨List.replicate 128 ⟨[98], 1⟩⟩, []) ∧
     TrimCounters.BucketCounter.decode
        (TrimCounters.BucketCounter.encode ⟨[], 2147483647⟩) =
          .ok (⟨[], 2147483647⟩, [])) ∧
    TrimCounters.Response.decode
        (TrimCounters.Response.encode ⟨[]⟩) = .ok (⟨[]⟩, []) :=
  ⟨⟨by decide, by decide, by decide, by decide⟩,
   claim_C2_roundtrip ⟨65535⟩ ⟨List.replicate 128 ⟨[98], 1⟩⟩ ⟨[], 2147483647⟩
     (by decide) (by decide) (by decide),
   (claim_C2_roundtrip ⟨65535⟩ ⟨[]⟩ ⟨[], 2147483647⟩
     (by decide) (by decide) (by decide)).2.1⟩

/-- C3: a `TrimRequest`/`TrimResponse` whose encoded compat tag is higher
than this build understands fails decode with `ProtocolVersionError`;
decoding any strict prefix (truncation) of a valid encoding fails with
`MalformedMessageError`; and a successful decode consumes only a prefix of
the supplied buffer — it never reads past it. -/
theorem claim_C3_version_and_truncation (v compat : Nat) (payload : Bytes)
    (req : TrimCounters.Request) (resp : TrimCounters.Response) (k j : Nat)
    (hc1 : 1 < compat) (hc2 : compat < 256) (hresp : resp.wf)
    (hk : k < req.encode.length) (hj : j < resp.encode.length) :
    TrimCounters.Request.decode (encFramed v compat payload) =
      .error .ProtocolVersionError ∧
    TrimCounters.Response.decode (encFramed v compat payload) =
      .error .ProtocolVersionError ∧
    TrimCounters.Request.decode (req.encode.take k) =
      .error .MalformedMessageError ∧
    TrimCounters.Response.decode (resp.encode.take j) =
      .error .MalformedMessageError ∧
    (∀ bs r rest, TrimCounters.Request.decode bs = .ok (r, rest) →
      rest <:+ bs) ∧
    (∀ bs r rest, TrimCounters.Response.decode bs = .ok (r, rest) →
      rest <:+ bs) := by
  refine ⟨?_, ?_, ?_, ?_, ?_, ?_⟩
  · simp [TrimCounters.Request.decode, framed_compat readU16 v compat payload hc1 hc2]
  · simp [TrimCounters.Response.decode,
      framed_compat TrimCounters.readCounterVec v compat payload hc1 hc2]
  · simp [TrimCounters.Request.decode, TrimCounters.Request.encode,
      framed_trunc readU16 (encU16 req.max_buckets) (by simp [encU16]) k hk]
  · have hlen : (TrimCounters.encCounterVec resp.bucket_counters).length <
        4294967296 := hresp.2.2
    simp [TrimCounters.Response.decode, TrimCounters.Response.encode,
      framed_trunc TrimCounters.readCounterVec _ hlen j hj]
  · exact fun bs r rest h => requestDecode_suffix h
  · exact fun bs r rest h => responseDecode_suffix h

/-- C3 witness: a frame tagged compat 2 is rejected; 5-byte prefixes of a
concrete request and response fail as malformed. -/
theorem claim_C3_version_and_truncation_witness :
    ((1 : Nat) < 2 ∧ (2 : Nat) < 256 ∧
     (⟨[⟨[7], 3⟩]⟩ : TrimCounters.Response).wf ∧
     5 < (TrimCounters.Request.encode ⟨9⟩).length ∧
     5 < (TrimCounters.Response.encode ⟨[⟨[7], 3⟩]⟩).length) ∧
    (TrimCounters.Request.decode (encFramed 2 2 []) =
       .error .ProtocolVersionError ∧
     TrimCounters.Response.decode (encFramed 2 2 []) =
       .error .ProtocolVersionError ∧
     TrimCounters.Request.decode ((TrimCounters.Request.encode ⟨9⟩).take 5) =
       .error .MalformedMessageError ∧
     TrimCounters.Response.decode
        ((TrimCounters.Response.encode ⟨[⟨[7], 3⟩]⟩).take 5) =
       .error .MalformedMessageError ∧
     (∀ bs r rest, TrimCounters.Request.decode bs = .ok (r, rest) →
       rest <:+ bs) ∧
     (∀ bs r rest, TrimCounters.Response.decode bs = .ok (r, rest) →
       rest <:+ bs)) :=
  ⟨⟨by decide, by decide, by decide, by decide, by decide⟩,
   claim_C3_version_and_truncation 2 2 [] ⟨9⟩ ⟨[⟨[7], 3⟩]⟩ 5 5
     (by decide) (by decide) (by decide) (by decide) (by decide)⟩

/-- C7: the `BucketCounterEntry` encoding carries no version or compat
tag — it is exactly the string encoding of `bucket` followed by the int32
encoding of `count` (8 + length of bucket bytes in total) — while the
`TrimRequest` and `TrimResponse` encodings each begin with the explicit
version byte 1 followed by the compat byte 1. -/
theorem claim_C7_encoding_shape (b : TrimCounters.BucketCounter)
    (req : TrimCounters.Request) (resp : TrimCounters.Response) :
    b.encode = encStr b.bucket ++ encI32 b.count ∧
    b.encode.length = b.bucket.length + 8 ∧
    (∃ rest, req.encode = 1 :: 1 :: rest) ∧
    (∃ rest, resp.encode = 1 :: 1 :: rest) := by
  refine ⟨rfl, ?_, ?_, ?_⟩
  · simp [TrimCounters.BucketCounter.encode, encStr, encU32, encI32]
  · exact ⟨encU32 (encU16 req.max_buckets).length ++ encU16 req.max_buckets,
      by simp [TrimCounters.Request.encode, encFramed, encU8]⟩
  · exact ⟨encU32 (TrimCounters.encCounterVec resp.bucket_counters).length ++
        TrimCounters.encCounterVec resp.bucket_counters,
      by simp [TrimCounters.Response.encode, encFramed, encU8]⟩

/-- C4: for every inbound notification whose cookie matches the current
subscription handle, exactly one acknowledgement is sent (`some reply`);
when the payload fails to decode a type discriminant, carries an
unregistered discriminant, or the dispatched handler throws a decode
error, the acknowledgement is empty.  (No exception escapes: the delivery
callback is modelled as a total function that catches every
`DecodeError`.) -/
theorem claim_C4_ack_always (w : BucketTrimWatcher)
    (nid cookie noid : Nat) (bl : Bytes) (h : cookie = w.handle) :
    (w.handle_notify nid cookie noid bl).2.isSome = true ∧
    (∀ e, readU32 bl = .error e →
      (w.handle_notify nid cookie noid bl).2 = some []) ∧
    (∀ ty p, readU32 bl = .ok (ty, p) → ty ≠ 0 →
      (w.handle_notify nid cookie noid bl).2 = some []) ∧
    (∀ ty p e, readU32 bl = .ok (ty, p) →
      handlerHandle w.counter p = .error e →
      (w.handle_notify nid cookie noid bl).2 = some []) := by
  subst h
  refine ⟨?_, ?_, ?_, ?_⟩
  · simp [BucketTrimWatcher.handle_notify]
  · intro e he
    simp [BucketTrimWatcher.handle_notify, he]
  · intro ty p hok hty
    simp [BucketTrimWatcher.handle_notify, hok, hty]
  · intro ty p e hok herr
    by_cases hty : ty = 0
    · subst hty
      simp [BucketTrimWatcher.handle_notify, hok, herr]
    · simp [BucketTrimWatcher.handle_notify, hok, hty]

/-- C4 witness: a matching-cookie delivery of a malformed payload (bad
request after a registered discriminant) is acknowledged with an empty
reply. -/
theorem claim_C4_ack_always_witness :
    ((3 : Nat) = (⟨3, BoundedKeyCounter.empty 2⟩ : BucketTrimWatcher).handle) ∧
    ((((⟨3, BoundedKeyCounter.empty 2⟩ :
        BucketTrimWatcher).handle_notify 1 3 9 [0, 0, 0, 0]).2.isSome = true) ∧
     (∀ e, readU32 [0, 0, 0, 0] = .error e →
       ((⟨3, BoundedKeyCounter.empty 2⟩ :
          BucketTrimWatcher).handle_notify 1 3 9 [0, 0, 0, 0]).2 = some []) ∧
     (∀ ty p, readU32 [0, 0, 0, 0] = .ok (ty, p) → ty ≠ 0 →
       ((⟨3, BoundedKeyCounter.empty 2⟩ :
          BucketTrimWatcher).handle_notify 1 3 9 [0, 0, 0, 0]).2 = some []) ∧
     (∀ ty p e, readU32 [0, 0, 0, 0] = .ok (ty, p) →
       handlerHandle (BoundedKeyCounter.empty 2) p = .error e →
       ((⟨3, BoundedKeyCounter.empty 2⟩ :
          BucketTrimWatcher).handle_notify 1 3 9 [0, 0, 0, 0]).2 = some [])) :=
  ⟨by decide, claim_C4_ack_always ⟨3, BoundedKeyCounter.empty 2⟩ 1 3 9
    [0, 0, 0, 0] (by decide)⟩

/-- C5: a notification whose sender cookie differs from the currently
active subscription handle is silently dropped — no handler invocation,
no acknowledgement reply, and the watcher state is unchanged. -/
theorem claim_C5_stale_cookie_drop (w : BucketTrimWatcher)
    (nid cookie noid : Nat) (bl : Bytes) (h : cookie ≠ w.handle) :
    w.handle_notify nid cookie noid bl = (w, none) := by
  simp [BucketTrimWatcher.handle_notify, h]

/-- C5 witness: cookie 8 against handle 7 drops the message. -/
theorem claim_C5_stale_cookie_drop_witness :
    ((8 : Nat) ≠ (⟨7, BoundedKeyCounter.empty 2⟩ : BucketTrimWatcher).handle) ∧
    (⟨7, BoundedKeyCounter.empty 2⟩ : BucketTrimWatcher).handle_notify
        1 8 9 [0, 0, 0, 0] = (⟨7, BoundedKeyCounter.empty 2⟩, none) :=
  ⟨by decide, claim_C5_stale_cookie_drop ⟨7, BoundedKeyCounter.empty 2⟩
    1 8 9 [0, 0, 0, 0] (by decide)⟩

/-- C6: after the producer records `"bucket1:inst1"` 10 times and
`"bucket2:inst1"` 3 times (no eviction: capacity 128), serving a peer
request with `max_buckets = 1` yields a response whose entry list is
exactly `[("bucket1:inst1", 10)]`; and in general, for any sequence of
`on_bucket_changed` calls during which no eviction is triggered, the count
recorded for a key equals the number of record calls made for it. -/
theorem claim_C6_counting (cap : Nat) (seq : List Bytes) (b : Bytes)
    (h : noEviction (BoundedKeyCounter.empty cap) seq = true) :
    handlerResponse
        (recordAll (BoundedKeyCounter.empty 128)
          (List.replicate 10 (strBytes "bucket1:inst1") ++
           List.replicate 3 (strBytes "bucket2:inst1")))
        (TrimCounters.Request.encode ⟨1⟩) =
      .ok ⟨[⟨strBytes "bucket1:inst1", 10⟩]⟩ ∧
    (recordAll (BoundedKeyCounter.empty cap) seq).valueOf b =
      (seq.count b : Int) := by
  constructor
  · rfl
  · have := noEviction_counts seq (BoundedKeyCounter.empty cap) b h
    simpa [BoundedKeyCounter.valueOf, BoundedKeyCounter.empty, countValue]
      using this

/-- C6 witness: a three-record sequence on two keys with capacity 4. -/
theorem claim_C6_counting_witness :
    noEviction (BoundedKeyCounter.empty 4) [[1], [2], [1]] = true ∧
    (handlerResponse
        (recordAll (BoundedKeyCounter.empty 128)
          (List.replicate 10 (strBytes "bucket1:inst1") ++
           List.replicate 3 (strBytes "bucket2:inst1")))
        (TrimCounters.Request.encode ⟨1⟩) =
      .ok ⟨[⟨strBytes "bucket1:inst1", 10⟩]⟩ ∧
    (recordAll (BoundedKeyCounter.empty 4) [[1], [2], [1]]).valueOf [1] =
      (([[1], [2], [1]] : List Bytes).count [1] : Int)) :=
  ⟨by rfl, claim_C6_counting 4 [[1], [2], [1]] [1] (by rfl)⟩

/-- C8: `start()` subscribes; it creates the coordination object if and
only if the subscribe failed with `-ENOENT` (treating `-EEXIST` from a
concurrent creator like success) and then retries the subscribe exactly
once (two `watch` calls in that case, one otherwise); any other subscribe
failure — on the first attempt or on the retry — closes the ioctx and is
returned to the caller as the error. -/
theorem claim_C8_start (w : BucketTrimWatcher) (env : StartEnv)
    (h : 0 ≤ env.refR) :
    (RadosCall.create ∈ (w.start env).2.2 ↔ env.w1 = -ENOENT) ∧
    ((w.start env).2.2.count RadosCall.watch =
      if env.w1 = -ENOENT ∧ (env.cr = -EEXIST ∨ env.cr = 0) then 2 else 1) ∧
    (env.w1 < 0 → env.w1 ≠ -ENOENT →
      (w.start env).1 = env.w1 ∧ RadosCall.close ∈ (w.start env).2.2) ∧
    (env.w1 = -ENOENT → (env.cr = -EEXIST ∨ env.cr = 0) → env.w2 < 0 →
      (w.start env).1 = env.w2 ∧ RadosCall.close ∈ (w.start env).2.2) := by
  have hr : ¬ env.refR < 0 := by omega
  by_cases h1 : env.w1 = -2
  · by_cases h2 : env.cr = -17 ∨ env.cr = 0
    · by_cases h3 : env.w2 < 0
      · refine ⟨?_, ?_, ?_, ?_⟩ <;>
          simp [BucketTrimWatcher.start, hr, h1, h2, h3, ENOENT, EEXIST,
            List.count_cons, List.count_append]
      · refine ⟨?_, ?_, ?_, ?_⟩ <;>
          simp [BucketTrimWatcher.start, hr, h1, h2, h3, ENOENT, EEXIST,
            List.count_cons, List.count_append]
    · by_cases h3 : env.cr < 0
      · refine ⟨?_, ?_, ?_, ?_⟩ <;>
          simp [BucketTrimWatcher.start, hr, h1, h2, h3, ENOENT, EEXIST,
            List.count_cons, List.count_append]
      · refine ⟨?_, ?_, ?_, ?_⟩ <;>
          simp [BucketTrimWatcher.start, hr, h1, h2, h3, ENOENT, EEXIST,
            List.count_cons, List.count_append]
  · by_cases h3 : env.w1 < 0
    · refine ⟨?_, ?_, ?_, ?_⟩ <;>
        simp [BucketTrimWatcher.start, hr, h1, h3, ENOENT, EEXIST,
          List.count_cons, List.count_append]
    · refine ⟨?_, ?_, ?_, ?_⟩ <;>
        simp [BucketTrimWatcher.start, hr, h1, h3, ENOENT, EEXIST,
          List.count_cons, List.count_append]

/-- C8 witness: the object is missing on first watch (`-ENOENT`), creation
succeeds, and the retried subscribe succeeds. -/
theorem claim_C8_start_witness :
    (0 : Int) ≤ (⟨0, -2, 5, 0, 0, 11⟩ : StartEnv).refR ∧
    ((RadosCall.create ∈
        ((⟨7, BoundedKeyCounter.empty 2⟩ : BucketTrimWatcher).start
          ⟨0, -2, 5, 0, 0, 11⟩).2.2 ↔
        (⟨0, -2, 5, 0, 0, 11⟩ : StartEnv).w1 = -ENOENT) ∧
     (((⟨7, BoundedKeyCounter.empty 2⟩ : BucketTrimWatcher).start
          ⟨0, -2, 5, 0, 0, 11⟩).2.2.count RadosCall.watch =
        if (⟨0, -2, 5, 0, 0, 11⟩ : StartEnv).w1 = -ENOENT ∧
            ((⟨0, -2, 5, 0, 0, 11⟩ : StartEnv).cr = -EEXIST ∨
             (⟨0, -2, 5, 0, 0, 11⟩ : StartEnv).cr = 0) then 2 else 1) ∧
     ((⟨0, -2, 5, 0, 0, 11⟩ : StartEnv).w1 < 0 →
       (⟨0, -2, 5, 0, 0, 11⟩ : StartEnv).w1 ≠ -ENOENT →
       ((⟨7, BoundedKeyCounter.empty 2⟩ : BucketTrimWatcher).start
          ⟨0, -2, 5, 0, 0, 11⟩).1 = (⟨0, -2, 5, 0, 0, 11⟩ : StartEnv).w1 ∧
       RadosCall.close ∈
         ((⟨7, BoundedKeyCounter.empty 2⟩ : BucketTrimWatcher).start
            ⟨0, -2, 5, 0, 0, 11⟩).2.2) ∧
     ((⟨0, -2, 5, 0, 0, 11⟩ : StartEnv).w1 = -ENOENT →
       ((⟨0, -2, 5, 0, 0, 11⟩ : StartEnv).cr = -EEXIST ∨
        (⟨0, -2, 5, 0, 0, 11⟩ : StartEnv).cr = 0) →
       (⟨0, -2, 5, 0, 0, 11⟩ : StartEnv).w2 < 0 →
       ((⟨7, BoundedKeyCounter.empty 2⟩ : BucketTrimWatcher).start
          ⟨0, -2, 5, 0, 0, 11⟩).1 = (⟨0, -2, 5, 0, 0, 11⟩ : StartEnv).w2 ∧
       RadosCall.close ∈
         ((⟨7, BoundedKeyCounter.empty 2⟩ : BucketTrimWatcher).start
            ⟨0, -2, 5, 0, 0, 11⟩).2.2)) :=
  ⟨by decide,
   claim_C8_start ⟨7, BoundedKeyCounter.empty 2⟩ ⟨0, -2, 5, 0, 0, 11⟩
     (by decide)⟩

/-- C9: a disconnect event (`-ENOTCONN`) whose cookie matches the current
handle triggers exactly one restart attempt — an `unwatch` followed by a
single `watch`, never retried at this layer — which installs the new
subscription handle on success and closes (releases) the ioctx on
failure. -/
theorem claim_C9_disconnect_restart (w : BucketTrimWatcher)
    (env : RestartEnv) (cookie : Nat) (err : Int)
    (h1 : cookie = w.handle) (h2 : err = -ENOTCONN) :
    (w.handle_error env cookie err).2 = (w.restart env).2.2 ∧
    (w.handle_error env cookie err).2.take 2 =
      [RadosCall.unwatch, RadosCall.watch] ∧
    (w.handle_error env cookie err).2.count RadosCall.watch = 1 ∧
    (0 ≤ env.wr → (w.handle_error env cookie err).1.handle = env.hnew) ∧
    (env.wr < 0 → RadosCall.close ∈ (w.handle_error env cookie err).2) := by
  subst h1
  subst h2
  by_cases h3 : env.wr < 0
  · refine ⟨?_, ?_, ?_, ?_, ?_⟩ <;>
      simp [BucketTrimWatcher.handle_error, BucketTrimWatcher.restart,
        ENOTCONN, h3, List.count_cons]
  · refine ⟨?_, ?_, ?_, ?_, ?_⟩ <;>
      simp [BucketTrimWatcher.handle_error, BucketTrimWatcher.restart,
        ENOTCONN, h3, List.count_cons]
    intro h'
    simp [h']

/-- C9 witness: a matching disconnect with a successful resubscribe
installing handle 42. -/
theorem claim_C9_disconnect_restart_witness :
    ((7 : Nat) = (⟨7, BoundedKeyCounter.empty 2⟩ : BucketTrimWatcher).handle ∧
     (-107 : Int) = -ENOTCONN) ∧
    (((⟨7, BoundedKeyCounter.empty 2⟩ : BucketTrimWatcher).handle_error
        ⟨0, 0, 42⟩ 7 (-107)).2 =
      ((⟨7, BoundedKeyCounter.empty 2⟩ : BucketTrimWatcher).restart
        ⟨0, 0, 42⟩).2.2 ∧
     ((⟨7, BoundedKeyCounter.empty 2⟩ : BucketTrimWatcher).handle_error
        ⟨0, 0, 42⟩ 7 (-107)).2.take 2 =
      [RadosCall.unwatch, RadosCall.watch] ∧
     ((⟨7, BoundedKeyCounter.empty 2⟩ : BucketTrimWatcher).handle_error
        ⟨0, 0, 42⟩ 7 (-107)).2.count RadosCall.watch = 1 ∧
     ((0 : Int) ≤ (⟨0, 0, 42⟩ : RestartEnv).wr →
       ((⟨7, BoundedKeyCounter.empty 2⟩ : BucketTrimWatcher).handle_error
          ⟨0, 0, 42⟩ 7 (-107)).1.handle = (⟨0, 0, 42⟩ : RestartEnv).hnew) ∧
     ((⟨0, 0, 42⟩ : RestartEnv).wr < 0 →
       RadosCall.close ∈
         ((⟨7, BoundedKeyCounter.empty 2⟩ : BucketTrimWatcher).handle_error
            ⟨0, 0, 42⟩ 7 (-107)).2)) :=
  ⟨⟨by decide, by decide⟩,
   claim_C9_disconnect_restart ⟨7, BoundedKeyCounter.empty 2⟩ ⟨0, 0, 42⟩
     7 (-107) (by decide) (by decide)⟩

/-- C10: an error event whose code is not the disconnect code `-ENOTCONN`,
or whose cookie does not match the current subscription handle, performs
no restart (no librados calls at all) and leaves the watcher state
entirely unchanged. -/
theorem claim_C10_error_ignored (w : BucketTrimWatcher) (env : RestartEnv)
    (cookie : Nat) (err : Int)
    (h : cookie ≠ w.handle ∨ err ≠ -ENOTCONN) :
    w.handle_error env cookie err = (w, []) := by
  unfold BucketTrimWatcher.handle_error
  rcases h with h | h
  · simp [h]
  · by_cases hc : cookie ≠ w.handle
    · simp [hc]
    · simp [hc, h]

/-- C10 witness: a permission error (`-13`) with a matching cookie changes
nothing. -/
theorem claim_C10_error_ignored_witness :
    ((7 : Nat) ≠ (⟨7, BoundedKeyCounter.empty 2⟩ : BucketTrimWatcher).handle ∨
     (-13 : Int) ≠ -ENOTCONN) ∧
    (⟨7, BoundedKeyCounter.empty 2⟩ : BucketTrimWatcher).handle_error
        ⟨0, 0, 42⟩ 7 (-13) = (⟨7, BoundedKeyCounter.empty 2⟩, []) :=
  ⟨by decide,
   claim_C10_error_ignored ⟨7, BoundedKeyCounter.empty 2⟩ ⟨0, 0, 42⟩
     7 (-13) (by decide)⟩
